import Mathlib

/-!
# Verification of `jwtcrack` (src/main.rs)

Shallow embedding of the `jwtcrack` dictionary JWT-secret cracker.  The
program parses a JWT, dispatches on the algorithm named in its header,
counts the wordlist lines for progress reporting, and then tries every
decodable wordlist line as an HMAC key, exiting as soon as one verifies.

Modelling conventions:
* The wordlist is a `List (Option String)`: each element is one line as
  produced by `BufReader::lines()`; `none` models a line whose read fails
  (e.g. invalid UTF-8), `some w` a successfully decoded line `w`.
* `jwt::Header::from_base64` (base64 + serde JSON decoding, an external
  library call) is a parameter `fromB64 : String → Except DecodeError JwtHeader`;
  its error type mirrors the jwt crate, whose decode errors are base64 /
  JSON / UTF-8 failures and never a missing-component error.
* The per-candidate signature check `VerifyingAlgorithm::verify` (HMAC
  computation + base64 decode of the signature segment, external crypto)
  is a parameter `verifyFn`, returning `Except JwtError Bool` exactly as the
  crate's `verify` returns `Result<bool, jwt::Error>`.
* `rayon`'s `par_bridge().for_each` with `exit(0)` on first match is
  modelled as a sequential fold over the line sequence; the claims proved
  below only concern outcomes that are schedule-independent under their
  hypotheses.
* Process exit is modelled by the `Outcome` type; `exitCode` maps an
  outcome to `some code` for a clean `exit`, `none` for a panic.
-/

namespace Jwtcrack

/-- The `jwt` crate's `AlgorithmType` enum (header `alg` values). -/
inductive AlgorithmType
  | Hs256 | Hs384 | Hs512
  | Rs256 | Rs384 | Rs512
  | Es256 | Es384 | Es512
  | Ps256 | Ps384 | Ps512
  | None
deriving DecidableEq, Repr

/-- Errors of `jwt::Header::from_base64`: the jwt crate wraps base64,
serde_json and UTF-8 failures; a decoder never produces a
missing-component error. -/
inductive DecodeError
  | Base64 | Json | Utf8
deriving DecidableEq, Repr

/-- The `jwt::Error` variants reachable from the code under scrutiny. -/
inductive JwtError
  | NoHeaderComponent
  | NoClaimsComponent
  | NoSignatureComponent
  | Decoding (e : DecodeError)
  | InvalidSignature
deriving DecidableEq, Repr

/-- The `jwt` crate's `Header` struct; only `algorithm` is consulted by
`split_jwt`, the remaining fields are carried for fidelity. -/
structure JwtHeader where
  algorithm : AlgorithmType
  key_id : Option String := none
  type_of : Option String := none
  content_type : Option String := none
deriving DecidableEq, Repr

/-- Rust's `str::split('.')` on the character list of a string: yields the
(possibly empty) runs between separators; an empty input yields one empty
segment, and a trailing separator yields a trailing empty segment.
`headD`/`tail` express taking apart the (always nonempty) recursive
result. -/
def splitChar (sep : Char) : List Char → List (List Char)
  | [] => [[]]
  | c :: cs =>
      if c = sep then [] :: splitChar sep cs
      else (c :: (splitChar sep cs).headD []) :: (splitChar sep cs).tail

/-- `split_jwt` from src/main.rs lines 96-105: pull the first three
dot-separated components off the iterator (`next().ok_or(...)` three
times), then decode the header to learn the algorithm.  Components past
the third are never requested. -/
def split_jwt (fromB64 : String → Except DecodeError JwtHeader) (jwt : String) :
    Except JwtError (AlgorithmType × String × String × String) :=
  let components := (splitChar '.' jwt.toList).map String.mk
  match components[0]? with
  | none => .error .NoHeaderComponent
  | some header =>
    match components[1]? with
    | none => .error .NoClaimsComponent
    | some claims =>
      match components[2]? with
      | none => .error .NoSignatureComponent
      | some signature =>
        match fromB64 header with
        | .error e => .error (.Decoding e)
        | .ok hd => .ok (hd.algorithm, header, claims, signature)

/-- `Result::unwrap_or` on the embedded `Except`. -/
def unwrap_or (r : Except ε α) (dflt : α) : α :=
  match r with
  | .ok a => a
  | .error _ => dflt

/-- Modelled from the spec (and the RustCrypto `hmac` crate, which is not
part of this repository): `Hmac::<D>::new_from_slice` performs the HMAC
key schedule — a key longer than the digest's block size is first hashed,
then the (short) key is zero-padded to block length — and returns
`Ok` unconditionally; its `Result<_, InvalidLength>` signature comes from
the generic `KeyInit` trait.  `digest` stands for the underlying SHA-2
compression, a trusted external primitive. -/
def new_from_slice (blockSize : Nat) (digest : List Nat → List Nat)
    (key : List Nat) : Except Unit (List Nat) :=
  let k := if key.length ≤ blockSize then key else digest key
  .ok (k ++ List.replicate (blockSize - k.length) 0)

/-- The `AlgorithmType::Hs256` arm of `create_key` (src/main.rs line 60):
`Hmac::<Sha256>::new_from_slice(word).expect("this shouldn't fail")`.
SHA-256 has a 64-byte block.  `none` models the `expect` panic. -/
def create_key_hs256 (sha256 : List Nat → List Nat) (word : List Nat) :
    Option (List Nat) :=
  match new_from_slice 64 sha256 word with
  | .ok k => some k
  | .error _ => none

/-- The `AlgorithmType::Hs384` arm (line 61); SHA-384 has a 128-byte block. -/
def create_key_hs384 (sha384 : List Nat → List Nat) (word : List Nat) :
    Option (List Nat) :=
  match new_from_slice 128 sha384 word with
  | .ok k => some k
  | .error _ => none

/-- The `AlgorithmType::Hs512` arm (line 62); SHA-512 has a 128-byte block. -/
def create_key_hs512 (sha512 : List Nat → List Nat) (word : List Nat) :
    Option (List Nat) :=
  match new_from_slice 128 sha512 word with
  | .ok k => some k
  | .error _ => none

/-- The three algorithm variants for which `create_key` is built
(the `Hs256 | Hs384 | Hs512` match arms of src/main.rs lines 60-62). -/
def isHmacAlg : AlgorithmType → Bool
  | .Hs256 | .Hs384 | .Hs512 => true
  | _ => false

/-- One progress line as printed at src/main.rs line 83:
`[alg: ...] [total: ...]: ...%`. -/
structure ProgressReport where
  alg : AlgorithmType
  total : Nat
  percent : Nat
deriving DecidableEq, Repr

/-- Terminal outcome of a run of `main`. -/
inductive Outcome
  | found (secret : String)
  | exhausted
  | noneAlg
  | unsupported
  | badJwt (e : JwtError)
deriving DecidableEq, Repr

/-- Process exit status: `some code` for a clean exit, `none` for a panic
(`expect "bad jwt"`). `found`, `exhausted` (fall through end of `main`)
and `noneAlg` exit 0; `unsupported` exits 1. -/
def exitCode : Outcome → Option Nat
  | .found _ => some 0
  | .exhausted => some 0
  | .noneAlg => some 0
  | .unsupported => some 1
  | .badJwt _ => none

/-- Observable result of one run: how many wordlist lines the counting
pass consumed, the progress lines emitted, the number of candidates
actually attempted (verifier invocations), and the terminal outcome. -/
structure RunResult where
  wordsCounted : Nat
  reports : List ProgressReport
  attempts : Nat
  outcome : Outcome
deriving DecidableEq, Repr

/-- The counting pass of src/main.rs lines 47-49: a second full read of
the wordlist, `lines().count()` — every line item is consumed and counted,
decodable or not. -/
def count_pass (lines : List (Option String)) : Nat := lines.length

/-- The worker body of src/main.rs lines 73-91, folded sequentially over
the line sequence from counter value `p`.  Per `Ok` line: build the key
(always succeeds, see `create_key_unreachable_failure` below), take the
pre-increment counter value `p` (`fetch_add`), emit a progress line when
`p % chunk == 0`, then verify and short-circuit on a match.  `Err` lines
are skipped by the `let Ok(word) = word else return` guard.  Returns the
emitted reports, the final counter value, and the found secret if any. -/
def search (verify : String → Bool) (a : AlgorithmType) (total chunk : Nat) :
    List (Option String) → Nat → List ProgressReport × Nat × Option String
  | [], p => ([], p, none)
  | none :: rest, p => search verify a total chunk rest p
  | some word :: rest, p =>
      let rep : List ProgressReport :=
        if p % chunk == 0 then [⟨a, total, (p * 100) / total⟩] else []
      if verify word then (rep, p + 1, some word)
      else
        let r := search verify a total chunk rest (p + 1)
        (rep ++ r.1, r.2.1, r.2.2)

/-- `main` from src/main.rs, with the external collaborators as
parameters.  In source order: the thread-pool size `_threads` only
configures rayon's scheduler (it cannot affect the value modelled here);
the wordlist is opened and fully counted (`total_words`, lines 47-49);
`chunk = max(1, total_words / 100)` (line 52); the token is split
(line 56, panicking on a bad JWT); the algorithm dispatch picks an HMAC
key constructor or exits (lines 59-71); finally the parallel search runs
(lines 73-91) and a no-match run falls through to line 93. -/
def jwtcrack_main (fromB64 : String → Except DecodeError JwtHeader)
    (verifyFn : AlgorithmType → String → String → String → String → Except JwtError Bool)
    (_threads : Nat) (jwt : String) (lines : List (Option String)) : RunResult :=
  let total_words := count_pass lines
  let chunk := max 1 (total_words / 100)
  match split_jwt fromB64 jwt with
  | .error e => ⟨total_words, [], 0, .badJwt e⟩
  | .ok (algorithm, header, claims, signature) =>
    if isHmacAlg algorithm then
      let verify := fun w => unwrap_or (verifyFn algorithm w header claims signature) false
      let r := search verify algorithm total_words chunk lines 0
      match r.2.2 with
      | some w => ⟨total_words, r.1, r.2.1, .found w⟩
      | none => ⟨total_words, r.1, r.2.1, .exhausted⟩
    else if algorithm = .None then
      ⟨total_words, [], 0, .noneAlg⟩
    else
      ⟨total_words, [], 0, .unsupported⟩

/-- Recogniser for the `NoHeaderComponent` failure of `split_jwt`. -/
def isNoHeaderErr : Except JwtError (AlgorithmType × String × String × String) → Bool
  | .error .NoHeaderComponent => true
  | _ => false

/-! ### Concrete collaborators used by witnesses and counterexamples -/

/-- A header decoder that reports algorithm HS256. -/
def wHs256B64 : String → Except DecodeError JwtHeader :=
  fun _ => .ok { algorithm := .Hs256 }

/-- A header decoder that reports the `None` algorithm. -/
def wNoneB64 : String → Except DecodeError JwtHeader :=
  fun _ => .ok { algorithm := .None }

/-- A header decoder that reports the (unsupported) RS256 algorithm. -/
def wRs256B64 : String → Except DecodeError JwtHeader :=
  fun _ => .ok { algorithm := .Rs256 }

/-- A verifier that accepts exactly the key `"secret"`. -/
def wSecretVerify :
    AlgorithmType → String → String → String → String → Except JwtError Bool :=
  fun _ w _ _ _ => .ok (w == "secret")

/-- A verifier that rejects every candidate. -/
def wFalseVerify :
    AlgorithmType → String → String → String → String → Except JwtError Bool :=
  fun _ _ _ _ _ => .ok false

/-- A verifier that fails on every candidate, as happens when the token's
signature segment is not valid base64 (`jwt::Error::Base64`). -/
def wErrVerify :
    AlgorithmType → String → String → String → String → Except JwtError Bool :=
  fun _ _ _ _ _ => .error (.Decoding .Base64)

/-! ### General lemmas about the embedded operations -/

/-- Rust's `split` always yields at least one (possibly empty) segment. -/
theorem splitChar_ne_nil (sep : Char) (l : List Char) : splitChar sep l ≠ [] := by
  cases l with
  | nil => simp [splitChar]
  | cons c cs =>
    simp only [splitChar]
    split <;> simp

/-- The candidate counter never decreases along the search. -/
theorem search_le (verify : String → Bool) (a : AlgorithmType) (total chunk : Nat) :
    ∀ (lines : List (Option String)) (p : Nat),
      p ≤ (search verify a total chunk lines p).2.1 := by
  intro lines
  induction lines with
  | nil => intro p; exact Nat.le_refl p
  | cons ln rest ih =>
    intro p
    cases ln with
    | none => exact ih p
    | some w =>
      by_cases hv : verify w = true
      · simp [search, hv]
      · simp only [search, hv]
        simp only [Bool.false_eq_true, if_false]
        exact Nat.le_trans (Nat.le_succ p) (ih (p + 1))

/-- If some line holds a key that verifies and every verifying line holds
that same key, the search reports exactly that key. -/
theorem search_finds (verify : String → Bool) (a : AlgorithmType) (total chunk : Nat)
    (k : String) :
    ∀ (lines : List (Option String)) (p : Nat),
      some k ∈ lines → verify k = true →
      (∀ w, some w ∈ lines → verify w = true → w = k) →
      (search verify a total chunk lines p).2.2 = some k := by
  intro lines
  induction lines with
  | nil => intro p hmem _ _; simp at hmem
  | cons ln rest ih =>
    intro p hmem hk huniq
    cases ln with
    | none =>
      have hmem' : some k ∈ rest := by
        rcases List.mem_cons.mp hmem with h | h
        · exact absurd h (by simp)
        · exact h
      exact ih p hmem' hk fun w hw hv => huniq w (List.mem_cons_of_mem _ hw) hv
    | some w =>
      by_cases hv : verify w = true
      · have hwk : w = k := huniq w (List.mem_cons_self _ _) hv
        subst hwk
        simp [search, hv]
      · have hmem' : some k ∈ rest := by
          rcases List.mem_cons.mp hmem with h | h
          · exfalso
            apply hv
            rw [show w = k from (Option.some.inj h).symm]
            exact hk
          · exact h
        simp only [search, hv, Bool.false_eq_true, if_false]
        exact ih (p + 1) hmem' hk fun w' hw hv' => huniq w' (List.mem_cons_of_mem _ hw) hv'

/-- If no decodable line verifies, the search reports no secret and its
final counter value counts exactly the decodable (`some`) lines. -/
theorem search_exhausted (verify : String → Bool) (a : AlgorithmType) (total chunk : Nat) :
    ∀ (lines : List (Option String)) (p : Nat),
      (∀ w, some w ∈ lines → verify w = false) →
      (search verify a total chunk lines p).2.2 = none ∧
      (search verify a total chunk lines p).2.1 =
        p + (lines.filter Option.isSome).length := by
  intro lines
  induction lines with
  | nil => intro p _; simp [search]
  | cons ln rest ih =>
    intro p hall
    cases ln with
    | none =>
      have h := ih p fun w hw => hall w (List.mem_cons_of_mem _ hw)
      simpa [search] using h
    | some w =>
      have hvw : verify w = false := hall w (List.mem_cons_self _ _)
      have hrest := ih (p + 1) fun w' hw => hall w' (List.mem_cons_of_mem _ hw)
      constructor
      · simp only [search, hvw, Bool.false_eq_true, if_false]
        exact hrest.1
      · simp only [search, hvw, Bool.false_eq_true, if_false, hrest.2,
          List.filter_cons, Option.isSome_some, if_true, List.length_cons]
        omega

/-- The reports the search emits are exactly one line per attempted
counter value `q` with `q % chunk == 0`, carrying the algorithm, the
total, and the integer percentage `(q * 100) / total`. -/
theorem search_reports (verify : String → Bool) (a : AlgorithmType) (total chunk : Nat) :
    ∀ (lines : List (Option String)) (p : Nat),
      (search verify a total chunk lines p).1 =
        ((List.range' p ((search verify a total chunk lines p).2.1 - p)).filter
            (fun q => q % chunk == 0)).map
          (fun q => ProgressReport.mk a total ((q * 100) / total)) := by
  intro lines
  induction lines with
  | nil => intro p; simp [search]
  | cons ln rest ih =>
    intro p
    cases ln with
    | none => simpa [search] using ih p
    | some w =>
      by_cases hv : verify w = true
      · simp only [search, hv, if_true]
        have h1 : p + 1 - p = 1 := by omega
        rw [h1]
        by_cases hm : (p % chunk == 0) = true
        · simp [hm]
        · simp [hm]
      · have hle := search_le verify a total chunk rest (p + 1)
        simp only [search, hv, Bool.false_eq_true, if_false]
        have h2 : (search verify a total chunk rest (p + 1)).2.1 - p
            = ((search verify a total chunk rest (p + 1)).2.1 - (p + 1)) + 1 := by omega
        rw [h2, show List.range' p (((search verify a total chunk rest (p + 1)).2.1
              - (p + 1)) + 1)
            = p :: List.range' (p + 1) ((search verify a total chunk rest (p + 1)).2.1
              - (p + 1)) from List.range'_succ _ _ 1]
        rw [List.filter_cons]
        by_cases hm : (p % chunk == 0) = true
        · simp only [hm, if_true, List.map_cons]
          rw [← ih (p + 1)]
          rfl
        · simp only [hm, Bool.false_eq_true, if_false]
          rw [← ih (p + 1)]
          simp [hm]

/-- Every emitted progress line carries the precomputed total. -/
theorem search_report_total (verify : String → Bool) (a : AlgorithmType)
    (total chunk : Nat) (lines : List (Option String)) (p : Nat)
    (rep : ProgressReport) (hmem : rep ∈ (search verify a total chunk lines p).1) :
    rep.total = total := by
  rw [search_reports] at hmem
  obtain ⟨q, _, rfl⟩ := List.mem_map.mp hmem
  rfl

/-- Unfolding of `jwtcrack_main` on the supported-HMAC path. -/
theorem jwtcrack_main_hmac (fromB64 : String → Except DecodeError JwtHeader)
    (verifyFn : AlgorithmType → String → String → String → String → Except JwtError Bool)
    (t : Nat) (jwt : String) (lines : List (Option String))
    (alg : AlgorithmType) (h c s : String)
    (hsplit : split_jwt fromB64 jwt = .ok (alg, h, c, s))
    (hsup : isHmacAlg alg = true) :
    jwtcrack_main fromB64 verifyFn t jwt lines =
      (let verify := fun w => unwrap_or (verifyFn alg w h c s) false
       let r := search verify alg lines.length (max 1 (lines.length / 100)) lines 0
       match r.2.2 with
       | some w => ⟨lines.length, r.1, r.2.1, .found w⟩
       | none => ⟨lines.length, r.1, r.2.1, .exhausted⟩) := by
  simp only [jwtcrack_main, count_pass, hsplit, hsup, if_true]

/-- On a supported-HMAC run, the emitted reports are the search's reports. -/
theorem jwtcrack_main_reports (fromB64 : String → Except DecodeError JwtHeader)
    (verifyFn : AlgorithmType → String → String → String → String → Except JwtError Bool)
    (t : Nat) (jwt : String) (lines : List (Option String))
    (alg : AlgorithmType) (h c s : String)
    (hsplit : split_jwt fromB64 jwt = .ok (alg, h, c, s))
    (hsup : isHmacAlg alg = true) :
    (jwtcrack_main fromB64 verifyFn t jwt lines).reports =
      (search (fun w => unwrap_or (verifyFn alg w h c s) false) alg
        lines.length (max 1 (lines.length / 100)) lines 0).1 := by
  rw [jwtcrack_main_hmac fromB64 verifyFn t jwt lines alg h c s hsplit hsup]
  cases hres : (search (fun w => unwrap_or (verifyFn alg w h c s) false) alg
      lines.length (max 1 (lines.length / 100)) lines 0).2.2 <;>
    simp [hres]

/-- On a supported-HMAC run, the attempt count is the search's final
counter value. -/
theorem jwtcrack_main_attempts (fromB64 : String → Except DecodeError JwtHeader)
    (verifyFn : AlgorithmType → String → String → String → String → Except JwtError Bool)
    (t : Nat) (jwt : String) (lines : List (Option String))
    (alg : AlgorithmType) (h c s : String)
    (hsplit : split_jwt fromB64 jwt = .ok (alg, h, c, s))
    (hsup : isHmacAlg alg = true) :
    (jwtcrack_main fromB64 verifyFn t jwt lines).attempts =
      (search (fun w => unwrap_or (verifyFn alg w h c s) false) alg
        lines.length (max 1 (lines.length / 100)) lines 0).2.1 := by
  rw [jwtcrack_main_hmac fromB64 verifyFn t jwt lines alg h c s hsplit hsup]
  cases hres : (search (fun w => unwrap_or (verifyFn alg w h c s) false) alg
      lines.length (max 1 (lines.length / 100)) lines 0).2.2 <;>
    simp [hres]

/-! ### Claim theorems -/

/-- C7: for every candidate byte string of any length, constructing the
keyed-hash (HMAC) verifier succeeds for each of the three supported
widths: the `expect("this shouldn't fail")` failure branch of the
key-constructor closures is unreachable (the result is never `none`), so
no candidate aborts the run at verifier construction. -/
theorem c7_create_key_never_fails (sha256 sha384 sha512 : List Nat → List Nat)
    (word : List Nat) :
    (create_key_hs256 sha256 word).isSome = true ∧
    (create_key_hs384 sha384 word).isSome = true ∧
    (create_key_hs512 sha512 word).isSome = true :=
  ⟨rfl, rfl, rfl⟩

/-- C8: for every input string (and every header decoder, which in the
jwt crate can only fail with base64/JSON/UTF-8 errors), `split_jwt` never
returns the `NoHeaderComponent` failure: splitting on `'.'` always yields
at least one segment, so the first `ok_or` branch is unreachable. -/
theorem c8_no_header_error_unreachable
    (fromB64 : String → Except DecodeError JwtHeader) (jwt : String) :
    isNoHeaderErr (split_jwt fromB64 jwt) = false := by
  have hne := splitChar_ne_nil '.' jwt.toList
  simp only [split_jwt]
  cases hs : splitChar '.' jwt.toList with
  | nil => exact absurd hs hne
  | cons x xs =>
    cases xs with
    | nil => rfl
    | cons y ys =>
      cases ys with
      | nil => rfl
      | cons z zs =>
        simp only [List.map_cons, List.getElem?_cons_zero, List.getElem?_cons_succ]
        cases fromB64 (String.mk x) <;> rfl

/-- C9: `split_jwt` accepts tokens with more than three dot-separated
segments: whenever the split yields segments `h :: c :: s :: rest`, the
result is determined by the first three alone — the header is decoded and
`(algorithm, h, c, s)` returned — and `rest` is silently ignored rather
than rejected as malformed. -/
theorem c9_extra_segments_ignored
    (fromB64 : String → Except DecodeError JwtHeader) (jwt : String)
    (h c s : List Char) (rest : List (List Char))
    (hsplit : splitChar '.' jwt.toList = h :: c :: s :: rest) :
    split_jwt fromB64 jwt =
      match fromB64 (String.mk h) with
      | .error e => .error (.Decoding e)
      | .ok hd => .ok (hd.algorithm, String.mk h, String.mk c, String.mk s) := by
  simp only [split_jwt, hsplit, List.map_cons, List.getElem?_cons_zero,
    List.getElem?_cons_succ]

/-- Witness for C9: the four-segment token `"a.b.c.d"` is accepted and its
fourth segment is ignored. -/
theorem c9_witness :
    splitChar '.' "a.b.c.d".toList = [['a'], ['b'], ['c'], ['d']] ∧
    split_jwt wHs256B64 "a.b.c.d" = .ok (AlgorithmType.Hs256, "a", "b", "c") :=
  ⟨by decide,
    c9_extra_segments_ignored wHs256B64 "a.b.c.d" ['a'] ['b'] ['c'] [['d']] (by decide)⟩

/-- C1: for every well-formed three-segment token whose header names a
supported HMAC algorithm, and every wordlist containing the true signing
key as some line (the key that verifies, and — reading "the true key" with
the standard no-collision assumption — the only line that verifies), the
engine reports exactly that line's text as the found secret and exits with
success status, for every configured worker count (the rayon pool size
only affects scheduling, never the reported result). -/
theorem c1_true_key_found (fromB64 : String → Except DecodeError JwtHeader)
    (verifyFn : AlgorithmType → String → String → String → String → Except JwtError Bool)
    (t : Nat) (jwt trueKey : String) (lines : List (Option String))
    (alg : AlgorithmType) (h c s : String)
    (hsplit : split_jwt fromB64 jwt = .ok (alg, h, c, s))
    (hsup : isHmacAlg alg = true)
    (hmem : some trueKey ∈ lines)
    (hver : unwrap_or (verifyFn alg trueKey h c s) false = true)
    (huniq : ∀ w, some w ∈ lines →
      unwrap_or (verifyFn alg w h c s) false = true → w = trueKey) :
    (jwtcrack_main fromB64 verifyFn t jwt lines).outcome = .found trueKey ∧
    exitCode (jwtcrack_main fromB64 verifyFn t jwt lines).outcome = some 0 := by
  have hres := search_finds (fun w => unwrap_or (verifyFn alg w h c s) false) alg
    lines.length (max 1 (lines.length / 100)) trueKey lines 0 hmem hver huniq
  rw [jwtcrack_main_hmac fromB64 verifyFn t jwt lines alg h c s hsplit hsup]
  simp [hres, exitCode]

/-- Witness for C1: a three-line wordlist containing `"secret"`, worker
count 4; the engine reports `"secret"` and exits 0. -/
theorem c1_witness :
    split_jwt wHs256B64 "h.c.s" = .ok (AlgorithmType.Hs256, "h", "c", "s") ∧
    isHmacAlg .Hs256 = true ∧
    some "secret" ∈ ([some "wrong1", some "secret", some "wrong2"] : List (Option String)) ∧
    unwrap_or (wSecretVerify .Hs256 "secret" "h" "c" "s") false = true ∧
    (jwtcrack_main wHs256B64 wSecretVerify 4 "h.c.s"
        [some "wrong1", some "secret", some "wrong2"]).outcome
      = .found "secret" ∧
    exitCode (jwtcrack_main wHs256B64 wSecretVerify 4 "h.c.s"
        [some "wrong1", some "secret", some "wrong2"]).outcome = some 0 := by
  have huniq : ∀ w, some w ∈ ([some "wrong1", some "secret", some "wrong2"] :
      List (Option String)) →
      unwrap_or (wSecretVerify .Hs256 w "h" "c" "s") false = true → w = "secret" := by
    intro w hw hv
    simp only [List.mem_cons, List.not_mem_nil, or_false, Option.some.injEq] at hw
    rcases hw with rfl | rfl | rfl
    · exact absurd hv (by decide)
    · rfl
    · exact absurd hv (by decide)
  have hconc := c1_true_key_found wHs256B64 wSecretVerify 4 "h.c.s" "secret"
    [some "wrong1", some "secret", some "wrong2"] .Hs256 "h" "c" "s"
    rfl rfl (by decide) rfl huniq
  exact ⟨rfl, rfl, by decide, rfl, hconc.1, hconc.2⟩

/-- C2 counterexample: on a token whose algorithm is `None`, the claim
asserts no wordlist line is ever read or counted; yet in the run below the
program takes the `None` path (informational exit) after its counting pass
has already consumed and counted both wordlist lines. -/
theorem c2_counterexample :
    (jwtcrack_main wNoneB64 wSecretVerify 0 "h.c.s" [some "a", some "b"]).outcome
        = Outcome.noneAlg ∧
    (jwtcrack_main wNoneB64 wSecretVerify 0 "h.c.s" [some "a", some "b"]).wordsCounted = 2 ∧
    (jwtcrack_main wNoneB64 wSecretVerify 0 "h.c.s" [some "a", some "b"]).wordsCounted ≠ 0 := by
  refine ⟨rfl, rfl, ?_⟩
  decide

/-- C2 (amended): for every token whose algorithm identifier is `None`,
the program prints an informational message and terminates with success
status without attempting any candidate and without emitting progress;
however the wordlist has already been opened and fully line-counted before
the algorithm dispatch, so every wordlist line is read and counted even on
this path. -/
theorem c2_none_alg_success (fromB64 : String → Except DecodeError JwtHeader)
    (verifyFn : AlgorithmType → String → String → String → String → Except JwtError Bool)
    (t : Nat) (jwt : String) (lines : List (Option String)) (h c s : String)
    (hsplit : split_jwt fromB64 jwt = .ok (.None, h, c, s)) :
    (jwtcrack_main fromB64 verifyFn t jwt lines).outcome = .noneAlg ∧
    exitCode (jwtcrack_main fromB64 verifyFn t jwt lines).outcome = some 0 ∧
    (jwtcrack_main fromB64 verifyFn t jwt lines).attempts = 0 ∧
    (jwtcrack_main fromB64 verifyFn t jwt lines).reports = [] ∧
    (jwtcrack_main fromB64 verifyFn t jwt lines).wordsCounted = lines.length := by
  simp [jwtcrack_main, count_pass, hsplit, isHmacAlg, exitCode]

/-- Witness for C2 (amended): concrete `None`-algorithm run over a
two-line wordlist. -/
theorem c2_witness :
    split_jwt wNoneB64 "h.c.s" = .ok (AlgorithmType.None, "h", "c", "s") ∧
    (jwtcrack_main wNoneB64 wSecretVerify 1 "h.c.s" [some "a", some "b"]).outcome
        = .noneAlg ∧
    (jwtcrack_main wNoneB64 wSecretVerify 1 "h.c.s" [some "a", some "b"]).attempts = 0 ∧
    (jwtcrack_main wNoneB64 wSecretVerify 1 "h.c.s" [some "a", some "b"]).wordsCounted
        = 2 := by
  have hconc := c2_none_alg_success wNoneB64 wSecretVerify 1 "h.c.s"
    [some "a", some "b"] "h" "c" "s" rfl
  exact ⟨rfl, hconc.1, hconc.2.2.1, hconc.2.2.2.2⟩

/-- C3 counterexample: on a token naming the unsupported RS256 algorithm,
the claim asserts the program terminates without reading the wordlist; yet
in the run below the unsupported-algorithm exit is taken after the
counting pass has already consumed and counted both wordlist lines. -/
theorem c3_counterexample :
    (jwtcrack_main wRs256B64 wSecretVerify 0 "h.c.s" [some "a", some "b"]).outcome
        = Outcome.unsupported ∧
    (jwtcrack_main wRs256B64 wSecretVerify 0 "h.c.s" [some "a", some "b"]).wordsCounted = 2 ∧
    (jwtcrack_main wRs256B64 wSecretVerify 0 "h.c.s" [some "a", some "b"]).wordsCounted ≠ 0 := by
  refine ⟨rfl, rfl, ?_⟩
  decide

/-- C3 (amended): for every token whose algorithm identifier is outside
the three supported HMAC widths and is not `None`, the program reports the
unsupported-algorithm condition and terminates with failure status without
attempting any candidate; however the wordlist has already been read and
its lines counted before the algorithm dispatch. -/
theorem c3_unsupported_alg_failure (fromB64 : String → Except DecodeError JwtHeader)
    (verifyFn : AlgorithmType → String → String → String → String → Except JwtError Bool)
    (t : Nat) (jwt : String) (lines : List (Option String))
    (alg : AlgorithmType) (h c s : String)
    (hsplit : split_jwt fromB64 jwt = .ok (alg, h, c, s))
    (hsup : isHmacAlg alg = false)
    (hnn : alg ≠ .None) :
    (jwtcrack_main fromB64 verifyFn t jwt lines).outcome = .unsupported ∧
    exitCode (jwtcrack_main fromB64 verifyFn t jwt lines).outcome = some 1 ∧
    (jwtcrack_main fromB64 verifyFn t jwt lines).attempts = 0 ∧
    (jwtcrack_main fromB64 verifyFn t jwt lines).wordsCounted = lines.length := by
  simp [jwtcrack_main, count_pass, hsplit, hsup, hnn, exitCode]

/-- Witness for C3 (amended): concrete RS256 run over a two-line
wordlist. -/
theorem c3_witness :
    split_jwt wRs256B64 "h.c.s" = .ok (AlgorithmType.Rs256, "h", "c", "s") ∧
    isHmacAlg .Rs256 = false ∧
    AlgorithmType.Rs256 ≠ AlgorithmType.None ∧
    (jwtcrack_main wRs256B64 wSecretVerify 1 "h.c.s" [some "a", some "b"]).outcome
        = .unsupported ∧
    exitCode (jwtcrack_main wRs256B64 wSecretVerify 1 "h.c.s"
        [some "a", some "b"]).outcome = some 1 ∧
    (jwtcrack_main wRs256B64 wSecretVerify 1 "h.c.s" [some "a", some "b"]).wordsCounted
        = 2 := by
  have hconc := c3_unsupported_alg_failure wRs256B64 wSecretVerify 1 "h.c.s"
    [some "a", some "b"] .Rs256 "h" "c" "s" rfl rfl (by decide)
  exact ⟨rfl, rfl, by decide, hconc.1, hconc.2.1, hconc.2.2.2⟩

/-- C4 counterexample: the claim says blank lines are skipped and not
attempted, and that the precomputed total equals the number of candidates
offered.  In the first run below the wordlist holds a blank line and one
word and no candidate verifies: both lines are attempted (`attempts = 2`),
so the blank line was offered.  In the second run one line fails to
decode: the counting pass counts 2 lines but only 1 candidate is offered. -/
theorem c4_counterexample :
    some "" ∈ ([some "", some "a"] : List (Option String)) ∧
    (jwtcrack_main wHs256B64 wFalseVerify 0 "h.c.s" [some "", some "a"]).outcome
        = Outcome.exhausted ∧
    (jwtcrack_main wHs256B64 wFalseVerify 0 "h.c.s" [some "", some "a"]).attempts = 2 ∧
    (jwtcrack_main wHs256B64 wFalseVerify 0 "h.c.s" [none, some "a"]).wordsCounted = 2 ∧
    (jwtcrack_main wHs256B64 wFalseVerify 0 "h.c.s" [none, some "a"]).attempts = 1 := by
  exact ⟨by decide, rfl, rfl, rfl, rfl⟩

/-- C4 (amended): the Candidate Source offers to the workers exactly one
candidate per decodable wordlist line — including blank lines, which are
attempted like any other; only lines that fail to decode are skipped,
not attempted and not fatal — and on a wordlist on which no candidate
verifies the engine terminates in the EXHAUSTED state having attempted
every decodable line exactly once in aggregate, with the precomputed
total equal to the total number of lines (decodable or not), which
coincides with the number of candidates offered only when every line
decodes. -/
theorem c4_exhausted_attempts (fromB64 : String → Except DecodeError JwtHeader)
    (verifyFn : AlgorithmType → String → String → String → String → Except JwtError Bool)
    (t : Nat) (jwt : String) (lines : List (Option String))
    (alg : AlgorithmType) (h c s : String)
    (hsplit : split_jwt fromB64 jwt = .ok (alg, h, c, s))
    (hsup : isHmacAlg alg = true)
    (hnone : ∀ w, some w ∈ lines → unwrap_or (verifyFn alg w h c s) false = false) :
    (jwtcrack_main fromB64 verifyFn t jwt lines).outcome = .exhausted ∧
    exitCode (jwtcrack_main fromB64 verifyFn t jwt lines).outcome = some 0 ∧
    (jwtcrack_main fromB64 verifyFn t jwt lines).attempts =
      (lines.filter Option.isSome).length ∧
    (jwtcrack_main fromB64 verifyFn t jwt lines).wordsCounted = lines.length := by
  have hex := search_exhausted (fun w => unwrap_or (verifyFn alg w h c s) false) alg
    lines.length (max 1 (lines.length / 100)) lines 0 hnone
  rw [jwtcrack_main_hmac fromB64 verifyFn t jwt lines alg h c s hsplit hsup]
  simp [hex.1, hex.2, exitCode]

/-- Witness for C4 (amended): no-match run over a wordlist with a blank
line, a word and an undecodable line: 2 of the 3 lines are attempted. -/
theorem c4_witness :
    split_jwt wHs256B64 "h.c.s" = .ok (AlgorithmType.Hs256, "h", "c", "s") ∧
    isHmacAlg .Hs256 = true ∧
    (∀ w, some w ∈ ([some "", none, some "a"] : List (Option String)) →
      unwrap_or (wFalseVerify .Hs256 w "h" "c" "s") false = false) ∧
    (jwtcrack_main wHs256B64 wFalseVerify 2 "h.c.s" [some "", none, some "a"]).outcome
        = .exhausted ∧
    (jwtcrack_main wHs256B64 wFalseVerify 2 "h.c.s" [some "", none, some "a"]).attempts
        = 2 ∧
    (jwtcrack_main wHs256B64 wFalseVerify 2 "h.c.s"
        [some "", none, some "a"]).wordsCounted = 3 := by
  have hnone : ∀ w, some w ∈ ([some "", none, some "a"] : List (Option String)) →
      unwrap_or (wFalseVerify .Hs256 w "h" "c" "s") false = false := fun w _ => rfl
  have hconc := c4_exhausted_attempts wHs256B64 wFalseVerify 2 "h.c.s"
    [some "", none, some "a"] .Hs256 "h" "c" "s" rfl rfl hnone
  exact ⟨rfl, rfl, hnone, hconc.1, hconc.2.2.1, hconc.2.2.2⟩

/-- C5: the progress reporter uses granularity
`chunk = max(1, total / 100)` and emits — for exactly those attempted
candidates whose pre-increment counter value `p` satisfies
`p % chunk == 0` — a progress line carrying the algorithm name, the total
candidate count, and the percentage `(p * 100) / total` in integer
arithmetic. -/
theorem c5_progress_reports (fromB64 : String → Except DecodeError JwtHeader)
    (verifyFn : AlgorithmType → String → String → String → String → Except JwtError Bool)
    (t : Nat) (jwt : String) (lines : List (Option String))
    (alg : AlgorithmType) (h c s : String)
    (hsplit : split_jwt fromB64 jwt = .ok (alg, h, c, s))
    (hsup : isHmacAlg alg = true) :
    (jwtcrack_main fromB64 verifyFn t jwt lines).reports =
      ((List.range (jwtcrack_main fromB64 verifyFn t jwt lines).attempts).filter
          (fun p => p % max 1 (lines.length / 100) == 0)).map
        (fun p => ProgressReport.mk alg lines.length ((p * 100) / lines.length)) := by
  rw [jwtcrack_main_reports fromB64 verifyFn t jwt lines alg h c s hsplit hsup,
    jwtcrack_main_attempts fromB64 verifyFn t jwt lines alg h c s hsplit hsup,
    List.range_eq_range']
  simpa using search_reports (fun w => unwrap_or (verifyFn alg w h c s) false) alg
    lines.length (max 1 (lines.length / 100)) lines 0

/-- Witness for C5: a five-line no-match run with `chunk = 1` emits one
progress line per attempt, at 0%, 20%, 40%, 60% and 80%. -/
theorem c5_witness :
    split_jwt wHs256B64 "h.c.s" = .ok (AlgorithmType.Hs256, "h", "c", "s") ∧
    isHmacAlg .Hs256 = true ∧
    (jwtcrack_main wHs256B64 wFalseVerify 1 "h.c.s"
        [some "a", some "b", some "c", some "d", some "e"]).reports =
      ((List.range (jwtcrack_main wHs256B64 wFalseVerify 1 "h.c.s"
            [some "a", some "b", some "c", some "d", some "e"]).attempts).filter
          (fun p => p % max 1 (5 / 100) == 0)).map
        (fun p => ProgressReport.mk .Hs256 5 ((p * 100) / 5)) ∧
    (jwtcrack_main wHs256B64 wFalseVerify 1 "h.c.s"
        [some "a", some "b", some "c", some "d", some "e"]).reports =
      [⟨.Hs256, 5, 0⟩, ⟨.Hs256, 5, 20⟩, ⟨.Hs256, 5, 40⟩, ⟨.Hs256, 5, 60⟩,
        ⟨.Hs256, 5, 80⟩] := by
  refine ⟨rfl, rfl, ?_, by decide⟩
  exact c5_progress_reports wHs256B64 wFalseVerify 1 "h.c.s"
    [some "a", some "b", some "c", some "d", some "e"] .Hs256 "h" "c" "s" rfl rfl

/-- C6: on a supported-HMAC run the reporting granularity is at least 1
(`chunk = max(1, total / 100) ≥ 1`, so `p % chunk` never divides by zero),
a wordlist with zero lines is reported exhausted with no progress line
ever emitted (so the percentage expression is never evaluated at all), and
every progress line that is emitted carries a strictly positive total —
the percentage `(p * 100) / total` is never computed with `total = 0`. -/
theorem c6_no_division_by_zero (fromB64 : String → Except DecodeError JwtHeader)
    (verifyFn : AlgorithmType → String → String → String → String → Except JwtError Bool)
    (t : Nat) (jwt : String) (lines : List (Option String))
    (alg : AlgorithmType) (h c s : String)
    (hsplit : split_jwt fromB64 jwt = .ok (alg, h, c, s))
    (hsup : isHmacAlg alg = true) :
    1 ≤ max 1 (count_pass lines / 100) ∧
    (lines = [] →
      (jwtcrack_main fromB64 verifyFn t jwt lines).outcome = .exhausted ∧
      (jwtcrack_main fromB64 verifyFn t jwt lines).reports = [] ∧
      exitCode (jwtcrack_main fromB64 verifyFn t jwt lines).outcome = some 0) ∧
    (∀ rep ∈ (jwtcrack_main fromB64 verifyFn t jwt lines).reports,
      rep.total = lines.length ∧ 0 < rep.total) := by
  refine ⟨Nat.le_max_left _ _, ?_, ?_⟩
  · rintro rfl
    rw [jwtcrack_main_hmac fromB64 verifyFn t jwt [] alg h c s hsplit hsup]
    exact ⟨rfl, rfl, rfl⟩
  · intro rep hrep
    rw [jwtcrack_main_reports fromB64 verifyFn t jwt lines alg h c s hsplit hsup] at hrep
    have htot : rep.total = lines.length :=
      search_report_total (fun w => unwrap_or (verifyFn alg w h c s) false) alg
        lines.length (max 1 (lines.length / 100)) lines 0 rep hrep
    refine ⟨htot, ?_⟩
    rw [htot]
    cases lines with
    | nil => simp [search] at hrep
    | cons l ls => simp

/-- Witness for C6: the empty wordlist is reported exhausted with no
progress line and exit status 0. -/
theorem c6_witness :
    split_jwt wHs256B64 "h.c.s" = .ok (AlgorithmType.Hs256, "h", "c", "s") ∧
    isHmacAlg .Hs256 = true ∧
    1 ≤ max 1 (count_pass ([] : List (Option String)) / 100) ∧
    (jwtcrack_main wHs256B64 wSecretVerify 0 "h.c.s" []).outcome = .exhausted ∧
    (jwtcrack_main wHs256B64 wSecretVerify 0 "h.c.s" []).reports = [] := by
  have hconc := c6_no_division_by_zero wHs256B64 wSecretVerify 0 "h.c.s"
    ([] : List (Option String)) .Hs256 "h" "c" "s" rfl rfl
  have hnil := hconc.2.1 rfl
  exact ⟨rfl, rfl, hconc.1, hnil.1, hnil.2.1⟩

/-- C10: a signature-verification error for a candidate (for example a
signature segment that is not valid base64) is absorbed by
`unwrap_or(false)` as a non-match rather than aborting: when verification
errors on every candidate of a supported-HMAC token, the engine still
attempts every decodable line, reports no secret found (EXHAUSTED), and
exits with success status instead of surfacing a malformed-token error. -/
theorem c10_verify_error_is_nonmatch (fromB64 : String → Except DecodeError JwtHeader)
    (verifyFn : AlgorithmType → String → String → String → String → Except JwtError Bool)
    (t : Nat) (jwt : String) (lines : List (Option String))
    (alg : AlgorithmType) (h c s : String)
    (hsplit : split_jwt fromB64 jwt = .ok (alg, h, c, s))
    (hsup : isHmacAlg alg = true)
    (herr : ∀ w, ∃ e, verifyFn alg w h c s = .error e) :
    (jwtcrack_main fromB64 verifyFn t jwt lines).outcome = .exhausted ∧
    exitCode (jwtcrack_main fromB64 verifyFn t jwt lines).outcome = some 0 ∧
    (jwtcrack_main fromB64 verifyFn t jwt lines).attempts =
      (lines.filter Option.isSome).length := by
  have hnone : ∀ w, some w ∈ lines → unwrap_or (verifyFn alg w h c s) false = false := by
    intro w _
    obtain ⟨e, he⟩ := herr w
    rw [he]
    rfl
  have hex := search_exhausted (fun w => unwrap_or (verifyFn alg w h c s) false) alg
    lines.length (max 1 (lines.length / 100)) lines 0 hnone
  rw [jwtcrack_main_hmac fromB64 verifyFn t jwt lines alg h c s hsplit hsup]
  simp [hex.1, hex.2, exitCode]

/-- Witness for C10: a verifier failing with a base64 error on every
candidate; the two-line run is exhausted with exit status 0. -/
theorem c10_witness :
    split_jwt wHs256B64 "h.c.s" = .ok (AlgorithmType.Hs256, "h", "c", "s") ∧
    isHmacAlg .Hs256 = true ∧
    (∀ w, ∃ e, wErrVerify .Hs256 w "h" "c" "s" = .error e) ∧
    (jwtcrack_main wHs256B64 wErrVerify 0 "h.c.s" [some "a", some "b"]).outcome
        = .exhausted ∧
    exitCode (jwtcrack_main wHs256B64 wErrVerify 0 "h.c.s"
        [some "a", some "b"]).outcome = some 0 ∧
    (jwtcrack_main wHs256B64 wErrVerify 0 "h.c.s" [some "a", some "b"]).attempts = 2 := by
  have herr : ∀ w, ∃ e, wErrVerify .Hs256 w "h" "c" "s" = .error e :=
    fun w => ⟨.Decoding .Base64, rfl⟩
  have hconc := c10_verify_error_is_nonmatch wHs256B64 wErrVerify 0 "h.c.s"
    [some "a", some "b"] .Hs256 "h" "c" "s" rfl rfl herr
  exact ⟨rfl, rfl, herr, hconc.1, hconc.2.1, hconc.2.2⟩

end Jwtcrack
